import Mathlib

/-!
Verification of the bubble-tea pub/sub system (bbt_server.py, bbt_client2.py,
bbt_admin.py) against its natural-language specification.

Python dictionaries are embedded as insertion-ordered association lists over
String keys; a Python exception escaping a handler is recorded as a `raised`
flag together with the (possibly partially mutated) global state at the point
of the raise, since Python mutations performed before an exception persist.
-/

set_option autoImplicit false

/-- Python `d[k]` read on a dict: first (unique) matching key, `none` = KeyError. -/
def pyGet {α : Type} : List (String × α) → String → Option α
  | [], _ => none
  | (k', v') :: rest, k => if k' = k then some v' else pyGet rest k

/-- Python `d[k] = v` on a dict: overwrite the existing entry in place, else append. -/
def pySet {α : Type} : List (String × α) → String → α → List (String × α)
  | [], k, v => [(k, v)]
  | (k', v') :: rest, k, v =>
    if k' = k then (k, v) :: rest else (k', v') :: pySet rest k v

/-- Split a character list at every occurrence of `c` (Python `str.split` with a
one-character separator). -/
def splitChar (c : Char) : List Char → List (List Char)
  | [] => [[]]
  | x :: xs =>
    match splitChar c xs with
    | [] => [[]]
    | r :: rs => if x == c then [] :: r :: rs else (x :: r) :: rs

/-- Python `s.split(sep)` for a one-character separator (the repo uses `DELIMITER = '|'`). -/
def pySplit (s : String) (c : Char) : List String :=
  (splitChar c s.data).map String.mk

/-- Bool test that the first list is an initial segment of the second. -/
def startsWithChars : List Char → List Char → Bool
  | [], _ => true
  | _ :: _, [] => false
  | c :: cs, x :: xs => c == x && startsWithChars cs xs

/-- Python `s.startswith(pat)`. -/
def pyStartsWith (s pat : String) : Bool :=
  startsWithChars pat.data s.data

/-- Value of a decimal digit character, `none` for a non-digit. -/
def digitVal (c : Char) : Option Nat :=
  if c.isDigit then some (c.toNat - 48) else none

/-- Accumulate a decimal digit string into a Nat, failing on any non-digit. -/
def digitsToNatAux : List Char → Nat → Option Nat
  | [], acc => some acc
  | c :: cs, acc =>
    match digitVal c with
    | some d => digitsToNatAux cs (acc * 10 + d)
    | none => none

/-- Python `int(s)` on the payloads this system exchanges: an optional leading
minus sign followed by decimal digits; `none` = ValueError. -/
def pyInt (s : String) : Option Int :=
  match s.data with
  | [] => none
  | '-' :: [] => none
  | '-' :: c :: cs => (digitsToNatAux (c :: cs) 0).map (fun n => -(n : Int))
  | cs => (digitsToNatAux cs 0).map (fun n => (n : Int))

/-- Reversed decimal digits of `n`, with structural fuel (`fuel > n` suffices). -/
def natToRevDigits : Nat → Nat → List Char
  | 0, _ => []
  | _, 0 => []
  | fuel + 1, n + 1 => Char.ofNat (48 + (n + 1) % 10) :: natToRevDigits fuel ((n + 1) / 10)

/-- Decimal rendering of a Nat (Python `str`/f-string interpolation). -/
def natToStr (n : Nat) : String :=
  if n = 0 then "0" else String.mk (natToRevDigits (n + 1) n).reverse

/-- Decimal rendering of an Int (Python f-string interpolation of an int). -/
def intToStr (n : Int) : String :=
  if n < 0 then "-" ++ natToStr n.natAbs else natToStr n.natAbs

/-- bbt_server.py: `X = 7`, the capacity of the last-orders display buffer. -/
def X : Nat := 7

/-- The server's mutable global variables (bbt_server.py lines 44-49): `stock`,
`menu` (loaded once, never reassigned), `order_number`, `menu_availability`,
`last_x_orders`. -/
structure ServerState where
  stock : List (String × Int)
  menu : List (String × List (String × Int))
  order_number : Int
  menu_availability : List (String × Bool)
  last_x_orders : List String
deriving DecidableEq

/-- A message the server publishes from inside `on_message`: an `Order/Reply`
payload string, or a retained `Menu/Availability` snapshot. -/
inductive OutMsg where
  | orderReply (payload : String)
  | menuAvailability (ma : List (String × Bool))
deriving DecidableEq

/-- Result of one `on_message` callback: the global state afterwards, the
messages published (in order), and whether an exception escaped the handler.
On `raised = true` the state holds every mutation made before the raise. -/
structure HandlerResult where
  state : ServerState
  published : List OutMsg
  raised : Bool
deriving DecidableEq

/-- Loop body of `check_availability` (bbt_server.py lines 83-87): for each
recipe entry, read `stock[ingredient]` (KeyError = `none`) and return `false`
as soon as one is below the required quantity. -/
def checkIngredients (stock : List (String × Int)) : List (String × Int) → Option Bool
  | [] => some true
  | (ing, q) :: rest =>
    match pyGet stock ing with
    | none => none
    | some s => if s < q then some false else checkIngredients stock rest

/-- bbt_server.py `check_availability` (lines 77-87): look up the recipe
(`menu[drink]`, KeyError = `none`) and check every ingredient against stock. -/
def check_availability (menu : List (String × List (String × Int)))
    (stock : List (String × Int)) (drink : String) : Option Bool :=
  match pyGet menu drink with
  | none => none
  | some recipe => checkIngredients stock recipe

/-- Loop of `get_menu_availability` (bbt_server.py lines 98-99): for each drink
of the menu, `menu_availability[drink] = check_availability(drink)`.  A raise
inside `check_availability` stops the loop, keeping the entries written so far
(second component `true` = exception escaped). -/
def gmaLoop (menu : List (String × List (String × Int))) (stock : List (String × Int)) :
    List String → List (String × Bool) → List (String × Bool) × Bool
  | [], ma => (ma, false)
  | d :: ds, ma =>
    match check_availability menu stock d with
    | none => (ma, true)
    | some b => gmaLoop menu stock ds (pySet ma d b)

/-- bbt_server.py `get_menu_availability` (lines 90-100): recompute the entry of
every drink that appears in `menu`, in menu order, into `menu_availability`. -/
def get_menu_availability (menu : List (String × List (String × Int)))
    (stock : List (String × Int)) (ma : List (String × Bool)) :
    List (String × Bool) × Bool :=
  gmaLoop menu stock (menu.map Prod.fst) ma

/-- Loop of `reduce_stock` (bbt_server.py lines 122-123):
`stock[ingredient] -= recipe[ingredient]` for each recipe entry; a KeyError
mid-loop keeps the decrements already applied. -/
def reduceLoop : List (String × Int) → List (String × Int) → List (String × Int) × Bool
  | [], stock => (stock, false)
  | (ing, q) :: rest, stock =>
    match pyGet stock ing with
    | none => (stock, true)
    | some s => reduceLoop rest (pySet stock ing (s - q))

/-- bbt_server.py `reduce_stock` (lines 116-123). -/
def reduce_stock (menu : List (String × List (String × Int)))
    (stock : List (String × Int)) (drink : String) : List (String × Int) × Bool :=
  match pyGet menu drink with
  | none => (stock, true)
  | some recipe => reduceLoop recipe stock

/-- The f-string appended to `last_x_orders` (bbt_server.py line 150). -/
def orderEntry (n : Int) (drink : String) : String :=
  "\nOrder " ++ intToStr n ++ ": " ++ drink ++ "\n"

/-- Branch of `on_message` for topic `Order/Request` (bbt_server.py lines
136-157).  Payload unpacking `client_id, drink = payload.split('|')` raises
unless the split has exactly two fields.  On approval: reduce stock, publish
the reply carrying the current `order_number`, publish the recomputed
availability, rotate `last_x_orders`, then increment `order_number`. -/
def handleOrderRequest (st : ServerState) (payload : String) : HandlerResult :=
  match pySplit payload '|' with
  | [client_id, drink] =>
    match check_availability st.menu st.stock drink with
    | some true =>
      let rs := reduce_stock st.menu st.stock drink
      if rs.2 then { state := { st with stock := rs.1 }, published := [], raised := true }
      else
        let reply := OutMsg.orderReply (client_id ++ "|" ++ intToStr st.order_number)
        let g := get_menu_availability st.menu rs.1 st.menu_availability
        if g.2 then
          { state := { st with stock := rs.1, menu_availability := g.1 },
            published := [reply], raised := true }
        else
          let st1 := { st with
            stock := rs.1
            menu_availability := g.1
            last_x_orders := st.last_x_orders.tail ++ [orderEntry st.order_number drink]
            order_number := st.order_number + 1 }
          { state := st1, published := [reply, OutMsg.menuAvailability g.1], raised := false }
    | some false =>
      { state := st, published := [OutMsg.orderReply client_id], raised := false }
    | none => { state := st, published := [], raised := true }
  | _ => { state := st, published := [], raised := true }

/-- Branch of `on_message` for topic `Update/OrderNo` (bbt_server.py lines
159-160): `order_number = int(payload)` with no validation whatsoever. -/
def handleOrderNoUpdate (st : ServerState) (payload : String) : HandlerResult :=
  match pyInt payload with
  | some n => { state := { st with order_number := n }, published := [], raised := false }
  | none => { state := st, published := [], raised := true }

/-- Catch-all branch of `on_message` (bbt_server.py lines 162-168), reached for
every topic other than `Order/Request` and `Update/OrderNo`: split the payload,
set the stock entry, republish availability.  `int(new_value)` is evaluated
before the assignment, so a ValueError leaves the ledger untouched. -/
def handleStockUpdate (st : ServerState) (payload : String) : HandlerResult :=
  match pySplit payload '|' with
  | [ingredient, new_value] =>
    match pyInt new_value with
    | some n =>
      let stock1 := pySet st.stock ingredient n
      let g := get_menu_availability st.menu stock1 st.menu_availability
      if g.2 then
        { state := { st with stock := stock1, menu_availability := g.1 },
          published := [], raised := true }
      else
        { state := { st with stock := stock1, menu_availability := g.1 },
          published := [OutMsg.menuAvailability g.1], raised := false }
    | none => { state := st, published := [], raised := true }
  | _ => { state := st, published := [], raised := true }

/-- bbt_server.py `on_message` (lines 126-168): dispatch on the topic string. -/
def on_message (st : ServerState) (topic payload : String) : HandlerResult :=
  if topic = "Order/Request" then handleOrderRequest st payload
  else if topic = "Update/OrderNo" then handleOrderNoUpdate st payload
  else handleStockUpdate st payload

/-- Serialized delivery of a sequence of (topic, payload) messages to
`on_message`, one at a time, threading the server's global state. -/
def runEvents (st : ServerState) : List (String × String) → ServerState
  | [] => st
  | e :: es => runEvents (on_message st e.1 e.2).state es

/-- An event is a nonnegative stock update, or not a stock update at all: if
its topic falls into the stock-update branch and its payload parses, the new
quantity is `≥ 0`. -/
def nonnegEvent (e : String × String) : Bool :=
  if e.1 = "Order/Request" ∨ e.1 = "Update/OrderNo" then true
  else
    match pySplit e.2 '|' with
    | [_, v] =>
      match pyInt v with
      | some n => decide (0 ≤ n)
      | none => true
    | _ => true

/-- Modelled from the spec (section 3, AvailabilityView): the drink's recipe is
fully covered by the ledger, `∀ ingredient ∈ recipe: stock[ingredient] ≥
recipe[ingredient]`.  Used to compare the published view with the spec's words. -/
def recipeCovered (stock recipe : List (String × Int)) : Prop :=
  ∀ p ∈ recipe, ∃ s, pyGet stock p.1 = some s ∧ p.2 ≤ s

/-- The requester identifier embedded in an `Order/Reply` payload: the field
before the delimiter (the server formats replies as `id` or `id|number`). -/
def requesterId (payload : String) : String :=
  (pySplit payload '|').headD ""

/-- Topics delivered to the server, from `client.subscribe([('Order/Request', 0),
('Update/#', 0)])` (bbt_server.py line 293) with MQTT `#`-wildcard semantics
(the transport is external; `Update/#` matches `Update` and every topic below
`Update/`). -/
def subscribed (topic : String) : Bool :=
  topic = "Order/Request" || topic = "Update" || pyStartsWith topic "Update/"

/-- bbt_admin.py `integer_validator` (lines 69-78): `int(int_string)` must
parse and be `≥ 0`; the admin tool refuses to publish a value failing this. -/
def integer_validator (s : String) : Bool :=
  match pyInt s with
  | none => false
  | some n => decide (0 ≤ n)

/-- bbt_client2.py `CLIENT_ID` (line 8). -/
def CLIENT_ID : String := "bbt-client-2"

/-- The client's `order_number` global holds either the string `'NEW ORDER'`,
the string `'REJECTED'`, or an integer order number. -/
inductive ClientOrderNum where
  | newOrder
  | rejected
  | num (n : Int)
deriving DecidableEq

/-- The client's mutable globals (bbt_client2.py lines 13-16).  The
`Menu/Availability` payload is reconstructed with `eval`, i.e. arbitrary code
execution; we keep the raw payload string, which determines the result. -/
structure ClientState where
  menu_availability_raw : String
  order_number : ClientOrderNum
  received_reply : Bool
deriving DecidableEq

/-- bbt_client2.py `on_message` (lines 44-65).  Note the reply filter is
`msg.payload.decode().startswith(CLIENT_ID)` - a prefix test on the whole
payload, not an equality test on the requester-id field.  The Bool result
records whether an exception (ValueError from `int`) escaped. -/
def client_on_message (st : ClientState) (topic payload : String) : ClientState × Bool :=
  if topic = "Menu/Availability" then
    ({ st with menu_availability_raw := payload }, false)
  else if pyStartsWith payload CLIENT_ID then
    if payload ≠ CLIENT_ID then
      match pyInt ((pySplit payload '|').getLastD "") with
      | some n =>
        ({ st with order_number := ClientOrderNum.num n, received_reply := true }, false)
      | none => (st, true)
    else
      ({ st with order_number := ClientOrderNum.rejected, received_reply := true }, false)
  else (st, false)

/-- A small concrete server state (the spec's example scenario: stock
`{milk: 2}`, menu `{latte: {milk: 2}}`), used by witnesses. -/
def demoState : ServerState :=
  { stock := [("milk", 2)]
    menu := [("latte", [("milk", 2)])]
    order_number := 1
    menu_availability := [("latte", true)]
    last_x_orders := List.replicate X "-" }

/-- A concrete event sequence for witnesses: two latte orders racing over the
stock, then a restock, then another order. -/
def demoEvents : List (String × String) :=
  [("Order/Request", "bbt-client-2|latte"), ("Order/Request", "bbt-client-2|latte"),
   ("Update/Stock", "milk|2"), ("Order/Request", "bbt-client-2|latte")]

/-! Helper lemmas about the dict embedding. -/

theorem pyGet_pySet_self {α : Type} (l : List (String × α)) (k : String) (v : α) :
    pyGet (pySet l k v) k = some v := by
  induction l with
  | nil => simp [pySet, pyGet]
  | cons p rest ih =>
    obtain ⟨k', v'⟩ := p
    by_cases h : k' = k
    · simp [pySet, pyGet, h]
    · simp [pySet, pyGet, h, ih]

theorem pyGet_pySet_ne {α : Type} (l : List (String × α)) {k k' : String} (v : α)
    (h : k' ≠ k) : pyGet (pySet l k v) k' = pyGet l k' := by
  have h' : ¬(k = k') := fun hh => h hh.symm
  induction l with
  | nil => simp [pySet, pyGet, h']
  | cons p rest ih =>
    obtain ⟨a, b⟩ := p
    by_cases ha : a = k
    · subst ha
      simp [pySet, pyGet, h']
    · by_cases hb : a = k'
      · subst hb
        simp [pySet, pyGet, ha, h]
      · simp [pySet, pyGet, ha, hb, ih]

theorem mem_pySet {α : Type} {l : List (String × α)} {k : String} {v : α} {p : String × α}
    (h : p ∈ pySet l k v) : p ∈ l ∨ p = (k, v) := by
  induction l with
  | nil => simpa [pySet] using h
  | cons q rest ih =>
    obtain ⟨a, b⟩ := q
    by_cases ha : a = k
    · simp only [pySet, if_pos ha] at h
      rcases List.mem_cons.mp h with h1 | h1
      · exact Or.inr h1
      · exact Or.inl (List.mem_cons_of_mem _ h1)
    · simp only [pySet, if_neg ha] at h
      rcases List.mem_cons.mp h with h1 | h1
      · exact Or.inl (h1 ▸ List.mem_cons_self _ _)
      · rcases ih h1 with h2 | h2
        · exact Or.inl (List.mem_cons_of_mem _ h2)
        · exact Or.inr h2

theorem pyGet_mem {α : Type} {l : List (String × α)} {k : String} {v : α}
    (h : pyGet l k = some v) : (k, v) ∈ l := by
  induction l with
  | nil => simp [pyGet] at h
  | cons q rest ih =>
    obtain ⟨a, b⟩ := q
    by_cases ha : a = k
    · subst ha
      simp [pyGet] at h
      subst h
      exact List.mem_cons_self _ _
    · simp only [pyGet, if_neg ha] at h
      exact List.mem_cons_of_mem _ (ih h)

theorem pyGet_isSome_of_mem {α : Type} {l : List (String × α)} {k : String}
    (h : k ∈ l.map Prod.fst) : (pyGet l k).isSome = true := by
  induction l with
  | nil => simp at h
  | cons q rest ih =>
    obtain ⟨a, b⟩ := q
    by_cases ha : a = k
    · simp [pyGet, ha]
    · simp only [List.map_cons, List.mem_cons] at h
      rcases h with h | h
      · exact absurd h.symm ha
      · simp [pyGet, ha, ih h]

theorem pySet_isSome_elim {α : Type} {l : List (String × α)} {k k' : String} {v : α}
    (h : (pyGet (pySet l k v) k').isSome = true) :
    (pyGet l k').isSome = true ∨ k' = k := by
  by_cases hk : k' = k
  · exact Or.inr hk
  · rw [pyGet_pySet_ne l v hk] at h
    exact Or.inl h

/-! Lemmas about availability checking and stock reduction. -/

theorem checkIngredients_some_iff {stock recipe : List (String × Int)} {b : Bool}
    (h : checkIngredients stock recipe = some b) :
    b = true ↔ recipeCovered stock recipe := by
  induction recipe with
  | nil =>
    simp only [checkIngredients, Option.some.injEq] at h
    subst h
    simp [recipeCovered]
  | cons p rest ih =>
    obtain ⟨ing, q⟩ := p
    simp only [checkIngredients] at h
    cases hg : pyGet stock ing with
    | none =>
      simp only [hg] at h
      exact absurd h (by simp)
    | some s =>
      simp only [hg] at h
      by_cases hlt : s < q
      · rw [if_pos hlt] at h
        have hb : b = false := by simpa using h.symm
        subst hb
        constructor
        · intro hc; exact absurd hc (by simp)
        · intro hcov
          obtain ⟨s', hs', hle⟩ := hcov (ing, q) (List.mem_cons_self _ _)
          rw [hg] at hs'
          have : s' = s := by simpa using hs'.symm
          subst this
          exact absurd hle (not_le.mpr hlt)
      · rw [if_neg hlt] at h
        rw [ih h]
        constructor
        · intro hcov p hp
          rcases List.mem_cons.mp hp with hp | hp
          · subst hp
            exact ⟨s, hg, not_lt.mp hlt⟩
          · exact hcov p hp
        · intro hcov p hp
          exact hcov p (List.mem_cons_of_mem _ hp)

theorem check_availability_eq {menu : List (String × List (String × Int))}
    {stock : List (String × Int)} {drink : String} {b : Bool}
    (h : check_availability menu stock drink = some b) :
    ∃ recipe, pyGet menu drink = some recipe ∧ checkIngredients stock recipe = some b := by
  unfold check_availability at h
  cases hg : pyGet menu drink with
  | none =>
    simp only [hg] at h
    exact absurd h (by simp)
  | some recipe =>
    simp only [hg] at h
    exact ⟨recipe, rfl, h⟩

theorem reduceLoop_fst_nonneg {recipe : List (String × Int)} :
    ∀ {stock : List (String × Int)}, recipeCovered stock recipe →
    (recipe.map Prod.fst).Nodup → (∀ p ∈ stock, 0 ≤ p.2) →
    ∀ p ∈ (reduceLoop recipe stock).1, 0 ≤ p.2 := by
  induction recipe with
  | nil =>
    intro stock _ _ hpos p hp
    exact hpos p hp
  | cons e rest ih =>
    intro stock hcov hnd hpos p hp
    obtain ⟨ing, q⟩ := e
    obtain ⟨s, hs, hle⟩ := hcov (ing, q) (List.mem_cons_self _ _)
    simp only [reduceLoop, hs] at hp
    have hpos1 : ∀ p ∈ pySet stock ing (s - q), 0 ≤ p.2 := by
      intro p' hp'
      rcases mem_pySet hp' with hm | hm
      · exact hpos p' hm
      · subst hm
        simpa using sub_nonneg.mpr hle
    have hnotin : ing ∉ rest.map Prod.fst := by
      simp only [List.map_cons, List.nodup_cons] at hnd
      exact hnd.1
    have hcov1 : recipeCovered (pySet stock ing (s - q)) rest := by
      intro p' hp'
      obtain ⟨s', hs', hle'⟩ := hcov p' (List.mem_cons_of_mem _ hp')
      refine ⟨s', ?_, hle'⟩
      have hne : p'.1 ≠ ing := by
        intro hc
        exact hnotin (hc ▸ List.mem_map_of_mem Prod.fst hp')
      rw [pyGet_pySet_ne stock (s - q) hne]
      exact hs'
    have hnd1 : (rest.map Prod.fst).Nodup := by
      simp only [List.map_cons, List.nodup_cons] at hnd
      exact hnd.2
    exact ih hcov1 hnd1 hpos1 p hp

/-! Lemmas about the availability-recomputation loop. -/

theorem gmaLoop_cons_none {menu : List (String × List (String × Int))}
    {stock : List (String × Int)} {d : String} {ds : List String}
    {ma : List (String × Bool)} (hc : check_availability menu stock d = none) :
    gmaLoop menu stock (d :: ds) ma = (ma, true) := by
  simp [gmaLoop, hc]

theorem gmaLoop_cons_some {menu : List (String × List (String × Int))}
    {stock : List (String × Int)} {d : String} {ds : List String}
    {ma : List (String × Bool)} {b : Bool} (hc : check_availability menu stock d = some b) :
    gmaLoop menu stock (d :: ds) ma = gmaLoop menu stock ds (pySet ma d b) := by
  simp [gmaLoop, hc]

theorem gmaLoop_pyGet_preserve {menu : List (String × List (String × Int))}
    {stock : List (String × Int)} {ds : List String} :
    ∀ {ma0 : List (String × Bool)} {k : String}, k ∉ ds →
    pyGet (gmaLoop menu stock ds ma0).1 k = pyGet ma0 k := by
  induction ds with
  | nil => intro ma0 k _; rfl
  | cons d rest ih =>
    intro ma0 k hk
    simp only [List.mem_cons, not_or] at hk
    cases hc : check_availability menu stock d with
    | none => rw [gmaLoop_cons_none hc]
    | some b =>
      rw [gmaLoop_cons_some hc, ih hk.2, pyGet_pySet_ne ma0 b hk.1]

theorem gmaLoop_false_out {menu : List (String × List (String × Int))}
    {stock : List (String × Int)} {ds : List String} :
    ∀ {ma0 : List (String × Bool)}, (gmaLoop menu stock ds ma0).2 = false →
    ∀ d ∈ ds, ∃ b, check_availability menu stock d = some b ∧
      pyGet (gmaLoop menu stock ds ma0).1 d = some b := by
  induction ds with
  | nil => intro ma0 _ d hd; simp at hd
  | cons d0 rest ih =>
    intro ma0 hfalse d hd
    cases hc : check_availability menu stock d0 with
    | none => rw [gmaLoop_cons_none hc] at hfalse; simp at hfalse
    | some b0 =>
      rw [gmaLoop_cons_some hc] at hfalse ⊢
      rcases List.mem_cons.mp hd with hd1 | hd1
      · subst hd1
        by_cases hin : d ∈ rest
        · exact ih hfalse d hin
        · refine ⟨b0, hc, ?_⟩
          rw [gmaLoop_pyGet_preserve hin, pyGet_pySet_self]
      · exact ih hfalse d hd1

theorem gmaLoop_isSome_keys {menu : List (String × List (String × Int))}
    {stock : List (String × Int)} {ds : List String} :
    ∀ {ma0 : List (String × Bool)} {k : String},
    (pyGet (gmaLoop menu stock ds ma0).1 k).isSome = true →
    (pyGet ma0 k).isSome = true ∨ k ∈ ds := by
  induction ds with
  | nil => intro ma0 k h; exact Or.inl h
  | cons d rest ih =>
    intro ma0 k h
    cases hc : check_availability menu stock d with
    | none => rw [gmaLoop_cons_none hc] at h; exact Or.inl h
    | some b =>
      rw [gmaLoop_cons_some hc] at h
      rcases ih h with h1 | h1
      · rcases pySet_isSome_elim h1 with h2 | h2
        · exact Or.inl h2
        · exact Or.inr (by simp [h2])
      · exact Or.inr (List.mem_cons_of_mem _ h1)

/-! Branch-selection lemmas for `on_message`. -/

theorem on_message_order_eq (st : ServerState) (p : String) :
    on_message st "Order/Request" p = handleOrderRequest st p := rfl

theorem on_message_orderno_eq (st : ServerState) (p : String) :
    on_message st "Update/OrderNo" p = handleOrderNoUpdate st p := rfl

theorem on_message_other_eq (st : ServerState) {t : String} (p : String)
    (h1 : t ≠ "Order/Request") (h2 : t ≠ "Update/OrderNo") :
    on_message st t p = handleStockUpdate st p := by
  unfold on_message
  rw [if_neg h1, if_neg h2]

/-- Every branch of the handler leaves the menu untouched (the Python code never
reassigns `menu` outside `initialise`). -/
theorem on_message_menu_eq (st : ServerState) (t p : String) :
    (on_message st t p).state.menu = st.menu := by
  unfold on_message handleOrderRequest handleOrderNoUpdate handleStockUpdate
  split
  · split
    · split
      · dsimp only []
        split
        · rfl
        · split
          · rfl
          · rfl
      · rfl
      · rfl
    · rfl
  · split
    · split
      · rfl
      · rfl
    · split
      · split
        · dsimp only []
          split
          · rfl
          · rfl
        · rfl
      · rfl

/-- On an `Order/Request`, every stock value stays nonnegative: the decrement is
only applied after `check_availability` confirmed sufficiency on the current
ledger. -/
theorem handleOrderRequest_stock_nonneg (st : ServerState) (p : String)
    (hmenu : ∀ q ∈ st.menu, (q.2.map Prod.fst).Nodup)
    (hpos : ∀ q ∈ st.stock, 0 ≤ q.2) :
    ∀ q ∈ (handleOrderRequest st p).state.stock, 0 ≤ q.2 := by
  unfold handleOrderRequest
  split
  · rename_i client_id drink hsplit
    split
    · rename_i hchk
      obtain ⟨recipe, hrec, hchk2⟩ := check_availability_eq hchk
      have hcov := (checkIngredients_some_iff hchk2).mp rfl
      have hnd : (recipe.map Prod.fst).Nodup := hmenu _ (pyGet_mem hrec)
      have hred : ∀ q ∈ (reduce_stock st.menu st.stock drink).1, 0 ≤ q.2 := by
        unfold reduce_stock
        simp only [hrec]
        exact reduceLoop_fst_nonneg hcov hnd hpos
      dsimp only []
      split
      · exact hred
      · split
        · exact hred
        · exact hred
    · exact hpos
    · exact hpos
  · exact hpos

/-- One handled event preserves nonnegativity of every stock value, provided a
stock update carries a nonnegative quantity. -/
theorem on_message_stock_nonneg (st : ServerState) (t p : String)
    (hmenu : ∀ q ∈ st.menu, (q.2.map Prod.fst).Nodup)
    (hpos : ∀ q ∈ st.stock, 0 ≤ q.2)
    (hev : nonnegEvent (t, p) = true) :
    ∀ q ∈ (on_message st t p).state.stock, 0 ≤ q.2 := by
  by_cases h1 : t = "Order/Request"
  · subst h1
    rw [on_message_order_eq]
    exact handleOrderRequest_stock_nonneg st p hmenu hpos
  · by_cases h2 : t = "Update/OrderNo"
    · subst h2
      rw [on_message_orderno_eq]
      unfold handleOrderNoUpdate
      split
      · exact hpos
      · exact hpos
    · rw [on_message_other_eq st p h1 h2]
      unfold nonnegEvent at hev
      rw [if_neg (by push_neg; exact ⟨h1, h2⟩)] at hev
      unfold handleStockUpdate
      split
      · rename_i ing v hsplit
        simp only [hsplit] at hev
        split
        · rename_i n hint
          simp only [hint] at hev
          have hn : (0 : Int) ≤ n := of_decide_eq_true hev
          have hset : ∀ q ∈ pySet st.stock ing n, 0 ≤ q.2 := by
            intro q hq
            rcases mem_pySet hq with hm | hm
            · exact hpos q hm
            · subst hm
              exact hn
          dsimp only []
          split
          · exact hset
          · exact hset
        · exact hpos
      · exact hpos

/-- C1: starting from a ledger whose quantities are all nonnegative (and whose
menu recipes are genuine dicts, i.e. have no duplicate ingredient keys), and
processing any sequence of events one at a time in which every stock update
sets a nonnegative value, every ingredient quantity in the ledger stays `≥ 0`
after each event: the order branch decrements only after `check_availability`
confirmed, on the current ledger, that every recipe ingredient is covered, so
no approved order ever overdraws an ingredient.  (Instantiating `events` at any
prefix of a sequence gives the bound after each individual event.) -/
theorem c1_no_overdraw (st : ServerState) (events : List (String × String))
    (hmenu : ∀ q ∈ st.menu, (q.2.map Prod.fst).Nodup)
    (hpos : ∀ q ∈ st.stock, 0 ≤ q.2)
    (hev : ∀ e ∈ events, nonnegEvent e = true) :
    ∀ q ∈ (runEvents st events).stock, 0 ≤ q.2 := by
  induction events generalizing st with
  | nil => exact hpos
  | cons e es ih =>
    simp only [runEvents]
    apply ih
    · rw [on_message_menu_eq]
      exact hmenu
    · exact on_message_stock_nonneg st e.1 e.2 hmenu hpos (hev e (List.mem_cons_self _ _))
    · intro e' he'
      exact hev e' (List.mem_cons_of_mem _ he')

/-- Witness for C1 on the spec's example scenario: two latte orders racing over
two units of milk, a restock, and a third order. -/
theorem c1_no_overdraw_witness :
    (∀ q ∈ demoState.menu, (q.2.map Prod.fst).Nodup) ∧
    (∀ q ∈ demoState.stock, 0 ≤ q.2) ∧
    (∀ e ∈ demoEvents, nonnegEvent e = true) ∧
    (∀ q ∈ (runEvents demoState demoEvents).stock, 0 ≤ q.2) :=
  ⟨by decide, by decide, by decide,
    c1_no_overdraw demoState demoEvents (by decide) (by decide) (by decide)⟩

/-- C2 counterexample: an `OrderRequest` for `boba`, absent from the menu,
does not publish a rejection reply; the handler raises a KeyError (inside
`check_availability`) and publishes nothing. -/
theorem c2_counterexample :
    pyGet demoState.menu "boba" = none ∧
    on_message demoState "Order/Request" "bbt-client-2|boba" =
      { state := demoState, published := [], raised := true } := by decide

/-- C2 (amended): for every `OrderRequest` naming a drink absent from the menu
catalog, `menu[drink]` raises KeyError out of the handler: no reply of any kind
is published and no state is mutated.  The rejection reply the spec describes
is never sent for unknown drinks. -/
theorem c2_amended (st : ServerState) (payload client_id drink : String)
    (hsplit : pySplit payload '|' = [client_id, drink])
    (habs : pyGet st.menu drink = none) :
    on_message st "Order/Request" payload =
      { state := st, published := [], raised := true } := by
  rw [on_message_order_eq]
  unfold handleOrderRequest
  simp only [hsplit]
  unfold check_availability
  simp only [habs]

/-- Witness for the amended C2. -/
theorem c2_amended_witness :
    on_message demoState "Order/Request" "other|boba" =
      { state := demoState, published := [], raised := true } :=
  c2_amended demoState "other|boba" "other" "boba" (by decide) (by decide)

/-- The `Update/OrderNo` branch never publishes anything. -/
theorem handleOrderNoUpdate_published (st : ServerState) (p : String) :
    (handleOrderNoUpdate st p).published = [] := by
  unfold handleOrderNoUpdate
  split
  · rfl
  · rfl

/-- If the order branch completed normally and published an availability
snapshot, that snapshot is exactly the recomputation over the new ledger, it
ran to completion, and it was also stored back into `menu_availability`. -/
theorem handleOrderRequest_published_ma (st : ServerState) (p : String)
    (ma : List (String × Bool))
    (hmem : OutMsg.menuAvailability ma ∈ (handleOrderRequest st p).published)
    (hr : (handleOrderRequest st p).raised = false) :
    get_menu_availability st.menu (handleOrderRequest st p).state.stock st.menu_availability
      = (ma, false) ∧
    (handleOrderRequest st p).state.menu_availability = ma := by
  unfold handleOrderRequest at hmem hr ⊢
  rcases hsp : pySplit p '|' with _ | ⟨a, _ | ⟨b, _ | ⟨c, rest⟩⟩⟩
  · simp [hsp] at hmem
  · simp [hsp] at hmem
  · simp only [hsp] at hmem hr ⊢
    cases hchk : check_availability st.menu st.stock b with
    | none => simp [hchk] at hmem
    | some bv =>
      cases bv with
      | false => simp [hchk] at hmem
      | true =>
        simp only [hchk] at hmem hr ⊢
        by_cases hrs : (reduce_stock st.menu st.stock b).2 = true
        · simp only [if_pos hrs] at hmem
          simp at hmem
        · simp only [if_neg hrs] at hmem hr ⊢
          by_cases hg : (get_menu_availability st.menu (reduce_stock st.menu st.stock b).1
              st.menu_availability).2 = true
          · rw [if_pos hg] at hr
            simp at hr
          · rw [if_neg hg] at hmem
            have h2 : (get_menu_availability st.menu (reduce_stock st.menu st.stock b).1
                st.menu_availability).2 = false := by
              simpa using hg
            simp only [List.mem_cons, List.not_mem_nil, or_false] at hmem
            rcases hmem with hmem | hmem
            · exact absurd hmem (by simp)
            · have hma := (OutMsg.menuAvailability.injEq _ _).mp hmem
              rw [if_neg hg]
              subst hma
              exact ⟨Prod.ext rfl h2, rfl⟩
  · simp [hsp] at hmem

/-- Same as `handleOrderRequest_published_ma` for the stock-update branch. -/
theorem handleStockUpdate_published_ma (st : ServerState) (p : String)
    (ma : List (String × Bool))
    (hmem : OutMsg.menuAvailability ma ∈ (handleStockUpdate st p).published)
    (_hr : (handleStockUpdate st p).raised = false) :
    get_menu_availability st.menu (handleStockUpdate st p).state.stock st.menu_availability
      = (ma, false) ∧
    (handleStockUpdate st p).state.menu_availability = ma := by
  unfold handleStockUpdate at hmem ⊢
  rcases hsp : pySplit p '|' with _ | ⟨a, _ | ⟨b, _ | ⟨c, rest⟩⟩⟩
  · simp [hsp] at hmem
  · simp [hsp] at hmem
  · simp only [hsp] at hmem ⊢
    cases hint : pyInt b with
    | none => simp [hint] at hmem
    | some n =>
      simp only [hint] at hmem ⊢
      by_cases hg : (get_menu_availability st.menu (pySet st.stock a n)
          st.menu_availability).2 = true
      · rw [if_pos hg] at hmem
        simp at hmem
      · rw [if_neg hg] at hmem
        have h2 : (get_menu_availability st.menu (pySet st.stock a n)
            st.menu_availability).2 = false := by
          simpa using hg
        simp only [List.mem_cons, List.not_mem_nil, or_false] at hmem
        have hma := (OutMsg.menuAvailability.injEq _ _).mp hmem
        rw [if_neg hg]
        subst hma
        exact ⟨Prod.ext rfl h2, rfl⟩
  · simp [hsp] at hmem

/-- Whenever a completed `on_message` publishes an availability snapshot, the
snapshot is the full recomputation of `get_menu_availability` over the menu and
the ledger left behind by the event. -/
theorem on_message_published_ma (st : ServerState) (t p : String)
    (ma : List (String × Bool))
    (hmem : OutMsg.menuAvailability ma ∈ (on_message st t p).published)
    (hr : (on_message st t p).raised = false) :
    get_menu_availability st.menu (on_message st t p).state.stock st.menu_availability
      = (ma, false) := by
  by_cases h1 : t = "Order/Request"
  · subst h1
    rw [on_message_order_eq] at hmem hr ⊢
    exact (handleOrderRequest_published_ma st p ma hmem hr).1
  · by_cases h2 : t = "Update/OrderNo"
    · subst h2
      rw [on_message_orderno_eq] at hmem
      rw [handleOrderNoUpdate_published] at hmem
      simp at hmem
    · rw [on_message_other_eq st p h1 h2] at hmem hr ⊢
      exact (handleStockUpdate_published_ma st p ma hmem hr).1

/-- C3: immediately after any completed event that publishes an availability
snapshot (an approved order or a stock update), the published mapping assigns
to every drink of the menu exactly the value of `∀ ingredient ∈ recipe:
stock[ingredient] ≥ recipe[ingredient]` evaluated on the resulting ledger, and
it contains no entries outside the menu (given the stored view started with
menu keys only, as `initialise` guarantees). -/
theorem c3_availability_consistent (st : ServerState) (t p : String)
    (ma : List (String × Bool))
    (hma0 : ∀ q ∈ st.menu_availability, (pyGet st.menu q.1).isSome = true)
    (hmem : OutMsg.menuAvailability ma ∈ (on_message st t p).published)
    (hr : (on_message st t p).raised = false) :
    (∀ drink recipe, pyGet st.menu drink = some recipe →
      ∃ b, pyGet ma drink = some b ∧
        (b = true ↔ recipeCovered (on_message st t p).state.stock recipe)) ∧
    (∀ drink, (pyGet ma drink).isSome = true → (pyGet st.menu drink).isSome = true) := by
  have hgma := on_message_published_ma st t p ma hmem hr
  unfold get_menu_availability at hgma
  constructor
  · intro drink recipe hrec
    have hkey : drink ∈ st.menu.map Prod.fst :=
      List.mem_map_of_mem Prod.fst (pyGet_mem hrec)
    have hfalse : (gmaLoop st.menu (on_message st t p).state.stock
        (st.menu.map Prod.fst) st.menu_availability).2 = false := by
      rw [hgma]
    obtain ⟨b, hchk, hout⟩ := gmaLoop_false_out hfalse drink hkey
    rw [hgma] at hout
    obtain ⟨recipe', hrec', hchk2⟩ := check_availability_eq hchk
    rw [hrec] at hrec'
    injection hrec' with hre
    subst hre
    exact ⟨b, hout, checkIngredients_some_iff hchk2⟩
  · intro drink hks
    have hks' : (pyGet (gmaLoop st.menu (on_message st t p).state.stock
        (st.menu.map Prod.fst) st.menu_availability).1 drink).isSome = true := by
      rw [hgma]
      exact hks
    rcases gmaLoop_isSome_keys hks' with h1 | h1
    · obtain ⟨bb, hb⟩ := Option.isSome_iff_exists.mp h1
      exact hma0 (drink, bb) (pyGet_mem hb)
    · exact pyGet_isSome_of_mem h1

/-- Witness for C3: setting the milk stock to zero republishes availability, and
the published snapshot marks the latte unavailable, matching the recipe check. -/
theorem c3_witness :
    (∀ q ∈ demoState.menu_availability, (pyGet demoState.menu q.1).isSome = true) ∧
    ((∀ drink recipe, pyGet demoState.menu drink = some recipe →
      ∃ b, pyGet [("latte", false)] drink = some b ∧
        (b = true ↔ recipeCovered
          (on_message demoState "Update/Stock" "milk|0").state.stock recipe)) ∧
    (∀ drink, (pyGet [("latte", false)] drink).isSome = true →
      (pyGet demoState.menu drink).isSome = true)) :=
  ⟨by decide, c3_availability_consistent demoState "Update/Stock" "milk|0"
    [("latte", false)] (by decide) (by decide) (by decide)⟩

/-- C4: for every handled `OrderRequest`, on approval (availability check true,
no exception) the reply carries the current `order_number` and the counter
increases by exactly 1; on rejection (check false) the handler publishes only
the bare rejection reply and mutates nothing at all - counter, ledger and
order history are unchanged, so rejections never consume an order number. -/
theorem c4_order_numbering (st : ServerState) (payload client_id drink : String)
    (hsplit : pySplit payload '|' = [client_id, drink]) :
    (check_availability st.menu st.stock drink = some true →
      (on_message st "Order/Request" payload).raised = false →
      (on_message st "Order/Request" payload).state.order_number = st.order_number + 1 ∧
      OutMsg.orderReply (client_id ++ "|" ++ intToStr st.order_number)
        ∈ (on_message st "Order/Request" payload).published) ∧
    (check_availability st.menu st.stock drink = some false →
      on_message st "Order/Request" payload =
        { state := st, published := [OutMsg.orderReply client_id], raised := false }) := by
  rw [on_message_order_eq]
  unfold handleOrderRequest
  constructor
  · intro hchk hr
    simp only [hsplit, hchk] at hr ⊢
    by_cases hrs : (reduce_stock st.menu st.stock drink).2 = true
    · simp only [if_pos hrs] at hr
      exact absurd hr (by simp)
    · simp only [if_neg hrs] at hr ⊢
      by_cases hg : (get_menu_availability st.menu
          (reduce_stock st.menu st.stock drink).1 st.menu_availability).2 = true
      · simp only [if_pos hg] at hr
        exact absurd hr (by simp)
      · simp only [if_neg hg]
        exact ⟨trivial, List.mem_cons_self _ _⟩
  · intro hchk
    simp only [hsplit, hchk]

/-- Witness for C4 on the example scenario: the latte order is approved with
order number 1 and the counter moves to 2; a state with no milk rejects. -/
theorem c4_order_numbering_witness :
    ((on_message demoState "Order/Request" "bbt-client-2|latte").state.order_number
        = demoState.order_number + 1 ∧
      OutMsg.orderReply ("bbt-client-2" ++ "|" ++ intToStr demoState.order_number)
        ∈ (on_message demoState "Order/Request" "bbt-client-2|latte").published) :=
  (c4_order_numbering demoState "bbt-client-2|latte" "bbt-client-2" "latte"
    (by decide)).1 (by decide) (by decide)

/-- C5 counterexample: a malformed payload does not get dropped with the
service carrying on normally; the exception escapes the handler (the code has
no try/except), shown by the raised flag on an `Order/Request` payload without
a delimiter and on an `Update/Stock` payload with a non-integer quantity. -/
theorem c5_counterexample :
    (on_message demoState "Order/Request" "bbt-client-2-latte").raised = true ∧
    (on_message demoState "Update/Stock" "milk|two").raised = true := by decide

/-- C5 (amended): a payload that does not split into the expected fields for
its topic, or whose numeric field does not parse, makes the handler raise
before any state mutation: state unchanged, nothing published, and the
exception escapes `on_message` (the server installs no per-event error
handling; whether later events are served is up to the external transport
library). -/
theorem c5_amended (st : ServerState) (payload : String) :
    ((pySplit payload '|').length ≠ 2 →
      on_message st "Order/Request" payload =
        { state := st, published := [], raised := true } ∧
      on_message st "Update/Stock" payload =
        { state := st, published := [], raised := true }) ∧
    (∀ ing v, pySplit payload '|' = [ing, v] → pyInt v = none →
      on_message st "Update/Stock" payload =
        { state := st, published := [], raised := true }) ∧
    (pyInt payload = none →
      on_message st "Update/OrderNo" payload =
        { state := st, published := [], raised := true }) := by
  refine ⟨fun hlen => ⟨?_, ?_⟩, fun ing v hsp hint => ?_, fun hint => ?_⟩
  · rw [on_message_order_eq]
    unfold handleOrderRequest
    rcases hsp : pySplit payload '|' with _ | ⟨a, _ | ⟨b, _ | ⟨c, rest⟩⟩⟩
    · rfl
    · rfl
    · rw [hsp] at hlen
      simp at hlen
    · rfl
  · rw [on_message_other_eq st payload (by decide) (by decide)]
    unfold handleStockUpdate
    rcases hsp : pySplit payload '|' with _ | ⟨a, _ | ⟨b, _ | ⟨c, rest⟩⟩⟩
    · rfl
    · rfl
    · rw [hsp] at hlen
      simp at hlen
    · rfl
  · rw [on_message_other_eq st payload (by decide) (by decide)]
    unfold handleStockUpdate
    simp only [hsp, hint]
  · rw [on_message_orderno_eq]
    unfold handleOrderNoUpdate
    simp only [hint]

/-- Witness for the amended C5. -/
theorem c5_amended_witness :
    on_message demoState "Order/Request" "bbt-client-2-latte" =
      { state := demoState, published := [], raised := true } :=
  ((c5_amended demoState "bbt-client-2-latte").1 (by decide)).1

/-- C6 counterexample: an `Update/OrderNo` carrying `-5` is not rejected and
does not leave the counter unchanged; the server silently replaces the next
order number (1 in `demoState`) with `-5`. -/
theorem c6_counterexample :
    demoState.order_number = 1 ∧
    (on_message demoState "Update/OrderNo" "-5").state.order_number = -5 ∧
    (on_message demoState "Update/OrderNo" "-5").raised = false ∧
    (on_message demoState "Update/OrderNo" "-5").published = [] := by decide

/-- C6 (amended): the server applies any parsed integer - negative included -
as the new next order number, publishing nothing; the nonnegativity check the
spec describes lives only in the admin client, whose `integer_validator`
refuses a negative value before it is ever published. -/
theorem c6_amended (st : ServerState) (payload : String) (n : Int)
    (hint : pyInt payload = some n) :
    on_message st "Update/OrderNo" payload =
      { state := { st with order_number := n }, published := [], raised := false } ∧
    (n < 0 → integer_validator payload = false) := by
  constructor
  · rw [on_message_orderno_eq]
    unfold handleOrderNoUpdate
    simp only [hint]
  · intro hneg
    unfold integer_validator
    simp only [hint]
    simp [not_le.mpr hneg]

/-- Witness for the amended C6. -/
theorem c6_amended_witness :
    on_message demoState "Update/OrderNo" "-5" =
      { state := { demoState with order_number := -5 }, published := [], raised := false } ∧
    ((-5 : Int) < 0 → integer_validator "-5" = false) :=
  c6_amended demoState "-5" (-5) (by decide)

/-- C7 counterexample: an `Order/Reply` whose embedded requester identifier is
`bbt-client-23` - not this client's `bbt-client-2` - nonetheless passes the
`startswith` filter and overwrites this client's order state: `order_number`
becomes 5 and `received_reply` becomes true. -/
theorem c7_counterexample :
    requesterId "bbt-client-23|5" ≠ CLIENT_ID ∧
    (client_on_message
        { menu_availability_raw := "", order_number := ClientOrderNum.newOrder,
          received_reply := false }
        "Order/Reply" "bbt-client-23|5").1.order_number = ClientOrderNum.num 5 ∧
    (client_on_message
        { menu_availability_raw := "", order_number := ClientOrderNum.newOrder,
          received_reply := false }
        "Order/Reply" "bbt-client-23|5").1.received_reply = true := by decide

/-- C7 (amended): the client filters replies by whether the whole payload
starts with its `CLIENT_ID`, not by the embedded requester identifier: a
payload not starting with `CLIENT_ID` leaves the order state untouched, and
any non-availability message starting with `CLIENT_ID` but differing from it
(in particular a reply for a requester whose identifier merely extends
`CLIENT_ID`) sets `order_number` to the parsed last field and marks the reply
received. -/
theorem c7_amended (st : ClientState) (topic payload : String) :
    (pyStartsWith payload CLIENT_ID = false →
      (client_on_message st topic payload).1.order_number = st.order_number ∧
      (client_on_message st topic payload).1.received_reply = st.received_reply) ∧
    (topic ≠ "Menu/Availability" → pyStartsWith payload CLIENT_ID = true →
      payload ≠ CLIENT_ID →
      ∀ n, pyInt ((pySplit payload '|').getLastD "") = some n →
        (client_on_message st topic payload).1.order_number = ClientOrderNum.num n ∧
        (client_on_message st topic payload).1.received_reply = true) := by
  constructor
  · intro hpre
    unfold client_on_message
    by_cases ht : topic = "Menu/Availability"
    · rw [if_pos ht]
      exact ⟨rfl, rfl⟩
    · rw [if_neg ht, if_neg (by simp [hpre])]
      exact ⟨rfl, rfl⟩
  · intro ht hpre hne n hint
    unfold client_on_message
    rw [if_neg ht, if_pos hpre, if_pos hne]
    simp only [hint]
    constructor <;> trivial

/-- Witness for the amended C7: a reply for `bbt-client-1` is ignored by this
client. -/
theorem c7_amended_witness :
    (client_on_message
        { menu_availability_raw := "", order_number := ClientOrderNum.newOrder,
          received_reply := false }
        "Order/Reply" "bbt-client-1|3").1.order_number = ClientOrderNum.newOrder ∧
    (client_on_message
        { menu_availability_raw := "", order_number := ClientOrderNum.newOrder,
          received_reply := false }
        "Order/Reply" "bbt-client-1|3").1.received_reply = false :=
  (c7_amended
    { menu_availability_raw := "", order_number := ClientOrderNum.newOrder,
      received_reply := false }
    "Order/Reply" "bbt-client-1|3").1 (by decide)

/-- Effect of the stock-update branch on a well-formed payload, shared by the
frame and wildcard claims. -/
theorem handleStockUpdate_spec (st : ServerState) (payload ing v : String) (n : Int)
    (hsplit : pySplit payload '|' = [ing, v]) (hint : pyInt v = some n) :
    (handleStockUpdate st payload).state.stock = pySet st.stock ing n ∧
    (handleStockUpdate st payload).state.order_number = st.order_number ∧
    (handleStockUpdate st payload).state.last_x_orders = st.last_x_orders ∧
    (handleStockUpdate st payload).state.menu_availability
      = (get_menu_availability st.menu (pySet st.stock ing n) st.menu_availability).1 ∧
    ((handleStockUpdate st payload).raised = false →
      (handleStockUpdate st payload).published
        = [OutMsg.menuAvailability
            (get_menu_availability st.menu (pySet st.stock ing n) st.menu_availability).1]) := by
  unfold handleStockUpdate
  simp only [hsplit, hint]
  by_cases hg : (get_menu_availability st.menu (pySet st.stock ing n)
      st.menu_availability).2 = true
  · simp only [if_pos hg]
    refine ⟨trivial, trivial, trivial, trivial, fun hr => ?_⟩
    exact absurd hr (by simp)
  · simp only [if_neg hg]
    exact ⟨trivial, trivial, trivial, trivial, fun _ => trivial⟩

/-- C8: handling a `StockUpdate {ingredient, new_quantity}` sets the ledger
entry to the given value - adding the key if absent, even for an ingredient
outside every recipe's domain - recomputes availability into the state and
publishes it (when no exception interrupts the publication), and never touches
the order counter or the order history. -/
theorem c8_stock_update_frame (st : ServerState) (payload ing v : String) (n : Int)
    (hsplit : pySplit payload '|' = [ing, v]) (hint : pyInt v = some n) :
    (on_message st "Update/Stock" payload).state.stock = pySet st.stock ing n ∧
    pyGet (on_message st "Update/Stock" payload).state.stock ing = some n ∧
    (on_message st "Update/Stock" payload).state.order_number = st.order_number ∧
    (on_message st "Update/Stock" payload).state.last_x_orders = st.last_x_orders ∧
    (on_message st "Update/Stock" payload).state.menu_availability
      = (get_menu_availability st.menu (pySet st.stock ing n) st.menu_availability).1 ∧
    ((on_message st "Update/Stock" payload).raised = false →
      (on_message st "Update/Stock" payload).published
        = [OutMsg.menuAvailability
            (get_menu_availability st.menu (pySet st.stock ing n) st.menu_availability).1]) := by
  rw [on_message_other_eq st payload (by decide) (by decide)]
  obtain ⟨h1, h2, h3, h4, h5⟩ := handleStockUpdate_spec st payload ing v n hsplit hint
  refine ⟨h1, ?_, h2, h3, h4, h5⟩
  rw [h1]
  exact pyGet_pySet_self st.stock ing n

/-- Witness for C8 on an ingredient that no recipe mentions: the entry is
added, counter and history are untouched, availability is republished. -/
theorem c8_stock_update_frame_witness :
    (on_message demoState "Update/Stock" "taro|9").state.stock
        = pySet demoState.stock "taro" 9 ∧
    pyGet (on_message demoState "Update/Stock" "taro|9").state.stock "taro" = some 9 ∧
    (on_message demoState "Update/Stock" "taro|9").state.order_number
        = demoState.order_number ∧
    (on_message demoState "Update/Stock" "taro|9").state.last_x_orders
        = demoState.last_x_orders ∧
    (on_message demoState "Update/Stock" "taro|9").state.menu_availability
      = (get_menu_availability demoState.menu (pySet demoState.stock "taro" 9)
          demoState.menu_availability).1 ∧
    ((on_message demoState "Update/Stock" "taro|9").raised = false →
      (on_message demoState "Update/Stock" "taro|9").published
        = [OutMsg.menuAvailability
            (get_menu_availability demoState.menu (pySet demoState.stock "taro" 9)
              demoState.menu_availability).1]) :=
  c8_stock_update_frame demoState "taro|9" "taro" "9" 9 (by decide) (by decide)

/-- One handled event keeps the order-history length within the capacity `X`:
a commit pops the oldest entry before appending the new one. -/
theorem on_message_history_len (st : ServerState) (t p : String)
    (h : st.last_x_orders.length ≤ X) :
    (on_message st t p).state.last_x_orders.length ≤ X := by
  unfold on_message handleOrderRequest handleOrderNoUpdate handleStockUpdate
  split
  · split
    · split
      · dsimp only []
        split
        · exact h
        · split
          · exact h
          · dsimp only []
            simp only [List.length_append, List.length_tail, List.length_cons,
              List.length_nil]
            unfold X at h ⊢
            omega
      · exact h
      · exact h
    · exact h
  · split
    · split
      · exact h
      · exact h
    · split
      · split
        · dsimp only []
          split
          · exact h
          · exact h
        · exact h
      · exact h

/-- C9: the order history never exceeds the capacity `X = 7` over any event
sequence, and each committed order rotates the buffer FIFO: the oldest entry
(head) is popped and the new order's descriptor is appended at the end. -/
theorem c9_history_bound (st : ServerState) (events : List (String × String))
    (hlen : st.last_x_orders.length ≤ X) :
    (runEvents st events).last_x_orders.length ≤ X ∧
    (∀ st' : ServerState, ∀ payload client_id drink : String,
      pySplit payload '|' = [client_id, drink] →
      check_availability st'.menu st'.stock drink = some true →
      (on_message st' "Order/Request" payload).raised = false →
      (on_message st' "Order/Request" payload).state.last_x_orders
        = st'.last_x_orders.tail ++ [orderEntry st'.order_number drink]) := by
  constructor
  · induction events generalizing st with
    | nil => exact hlen
    | cons e es ih =>
      simp only [runEvents]
      exact ih _ (on_message_history_len st e.1 e.2 hlen)
  · intro st' payload client_id drink hsplit hchk hr
    rw [on_message_order_eq] at hr ⊢
    unfold handleOrderRequest at hr ⊢
    simp only [hsplit, hchk] at hr ⊢
    by_cases hrs : (reduce_stock st'.menu st'.stock drink).2 = true
    · simp only [if_pos hrs] at hr
      exact absurd hr (by simp)
    · simp only [if_neg hrs] at hr ⊢
      by_cases hg : (get_menu_availability st'.menu
          (reduce_stock st'.menu st'.stock drink).1 st'.menu_availability).2 = true
      · simp only [if_pos hg] at hr
        exact absurd hr (by simp)
      · simp only [if_neg hg]

/-- Witness for C9: the demo event sequence commits two orders and the history
stays at its capacity of 7 entries. -/
theorem c9_history_bound_witness :
    (runEvents demoState demoEvents).last_x_orders.length ≤ X :=
  (c9_history_bound demoState demoEvents (by decide)).1

/-- C10: every message whose topic is neither `Order/Request` nor
`Update/OrderNo` falls into the catch-all stock-update branch and is handled
exactly as an `Update/Stock` message; since the server subscribes to the
wildcard `Update/#`, every delivered topic under `Update/` other than
`Update/OrderNo` mutates the stock ledger this way. -/
theorem c10_wildcard_topics (st : ServerState) (topic payload : String)
    (h1 : topic ≠ "Order/Request") (h2 : topic ≠ "Update/OrderNo") :
    on_message st topic payload = on_message st "Update/Stock" payload ∧
    (pyStartsWith topic "Update/" = true → subscribed topic = true) ∧
    (∀ ing v : String, ∀ n : Int, pySplit payload '|' = [ing, v] → pyInt v = some n →
      (on_message st topic payload).state.stock = pySet st.stock ing n) := by
  have heq : on_message st topic payload = handleStockUpdate st payload :=
    on_message_other_eq st payload h1 h2
  refine ⟨?_, ?_, ?_⟩
  · rw [heq, on_message_other_eq st payload (by decide) (by decide)]
  · intro hpre
    unfold subscribed
    rw [hpre]
    simp
  · intro ing v n hsplit hint
    rw [heq]
    exact (handleStockUpdate_spec st payload ing v n hsplit hint).1

/-- Witness for C10 at the undeclared topic `Update/Anything`. -/
theorem c10_wildcard_topics_witness :
    on_message demoState "Update/Anything" "milk|3"
        = on_message demoState "Update/Stock" "milk|3" ∧
    (pyStartsWith "Update/Anything" "Update/" = true →
      subscribed "Update/Anything" = true) ∧
    (∀ ing v : String, ∀ n : Int, pySplit "milk|3" '|' = [ing, v] → pyInt v = some n →
      (on_message demoState "Update/Anything" "milk|3").state.stock
        = pySet demoState.stock ing n) :=
  c10_wildcard_topics demoState "Update/Anything" "milk|3" (by decide) (by decide)
